import Mathlib

/-!
Verification of the Razor sequence-ingestion pipeline (src/razor.py).

The Python source is shallowly embedded over `List Char` (sequences) and `ℚ`
(classifier scores).  Python's `str.upper` is modelled for the ASCII range,
which covers the amino-acid alphabet the program works with.
-/

namespace Razor

/-- ASCII model of Python `str.upper` applied to one character. -/
def pyToUpper (c : Char) : Char :=
  if 'a' ≤ c ∧ c ≤ 'z' then Char.ofNat (c.toNat - 32) else c

/-- One character of Python `str.replace("U", "C")`: a single-character
pattern replacement acts independently on every character. -/
def replaceUC (c : Char) : Char :=
  if c = 'U' then 'C' else c

/-- Membership in the 20-letter class `[RKNDQEHPYWSTGAMCFLVI]`
of the regex on line 34 of src/razor.py. -/
def validAA (c : Char) : Bool :=
  match c with
  | 'R' | 'K' | 'N' | 'D' | 'Q' | 'E' | 'H' | 'P' | 'Y' | 'W'
  | 'S' | 'T' | 'G' | 'A' | 'M' | 'C' | 'F' | 'L' | 'V' | 'I' => true
  | _ => false

/-- Python `re.match("^[RKNDQEHPYWSTGAMCFLVI]*$", t)` viewed as a Boolean.
In Python's `re`, `$` matches at the end of the string and also just before
a newline that is the last character, so the pattern accepts a string all of
whose characters are in the class, and also such a string followed by one
trailing newline. -/
def matchesValidDollar (t : List Char) : Bool :=
  t.all validAA || (t.getLast? == some '\n' && t.dropLast.all validAA)

/-- Embedding of `check_seq(seq, max_scan=80)` (src/razor.py lines 30-40):
`seq.upper()[: max_scan + 15].replace("U", "C")` is matched against the
anchored amino-acid regex. -/
def check_seq (seq : List Char) (max_scan : ℕ := 80) : Bool :=
  matchesValidDollar (((seq.map pyToUpper).take (max_scan + 15)).map replaceUC)

/-- The normalization the spec attributes to the pipeline: uppercase, then
rewrite every `U` residue to `C`. -/
def specNormalize (s : List Char) : List Char :=
  (s.map pyToUpper).map replaceUC

/-! ## fasta_reader (src/razor.py lines 43-67)

The input file is modelled after `pandas.read_csv(file, sep='>',
lineterminator='>')` has split it: a list of blocks, one per record, each
block being the text between two `>` markers. -/

/-- `fasta_df[0].str.split('\n', n=1, expand=True)`: split a block at its
first newline into the accession and the (possibly absent) sequence text. -/
def splitOnceNL : List Char → List Char × Option (List Char)
  | [] => ([], none)
  | c :: cs =>
      if c = '\n' then ([], some cs)
      else
        let p := splitOnceNL cs
        (c :: p.1, p.2)

/-- `.replace('\n', '', regex=True)`: delete every newline character. -/
def removeNL (s : List Char) : List Char :=
  s.filter (fun c => c ≠ '\n')

/-- `Series.replace('U', 'C')` without `regex=True` replaces only values
that are wholly equal to `"U"`; it is not a substring substitution. -/
def seriesReplaceWholeU (s : List Char) : List Char :=
  if s = ['U'] then ['C'] else s

/-- The per-record sequence pipeline of src/razor.py lines 52-53:
`.replace('\n','',regex=True).astype(str).str.upper().replace('U','C').str[:max_scan+15]`.
`astype(str)` renders an absent (None) sequence as the string `"None"`. -/
def processSeq (rest : Option (List Char)) (max_scan : ℕ) : List Char :=
  match rest with
  | none => (seriesReplaceWholeU ("None".toList.map pyToUpper)).take (max_scan + 15)
  | some r => (seriesReplaceWholeU ((removeNL r).map pyToUpper)).take (max_scan + 15)

/-- The rows of `fasta_df` after the split and the sequence pipeline:
one `(Accession, Sequence)` pair per block. -/
def parsedRows (blocks : List (List Char)) (max_scan : ℕ) :
    List (List Char × List Char) :=
  blocks.map (fun b =>
    let p := splitOnceNL b
    (p.1, processSeq p.2 max_scan))

/-- The string `'NONE'` compared against on line 59. -/
def noneUpper : List Char := "NONE".toList

/-- Embedding of `fasta_reader(file, max_scan)` (src/razor.py lines 43-67).
Returns the surviving `(Accession, Sequence)` rows together with the
attrition count `total_seq - remained_seq` printed on lines 62-64.
Note that line 57 calls `check_seq(x)` with no second argument, so the
validator runs with its default `max_scan=80` regardless of the configured
value.  The final `dropna()` is a no-op in this model: after `astype(str)`
the Sequence column holds no missing value, and the Accession produced by
the split always exists. -/
def fasta_reader (blocks : List (List Char)) (max_scan : ℕ) :
    List (List Char × List Char) × ℕ :=
  let rows := parsedRows blocks max_scan
  let checked := rows.filter (fun r => check_seq r.2 80)
  let kept := checked.filter (fun r => decide (r.2 ≠ []) && decide (r.2 ≠ noneUpper))
  (kept, rows.length - kept.length)

/-! ## Run configuration (src/razor.py lines 70-78 and 112-138)

An argparse `type=` converter receives the raw option string.  Python's
`int(...)` either produces an integer or raises, so a raw value is modelled
as `Option Int`: `some v` when `int` succeeds with `v`, `none` when it
raises.  Both converters run while arguments are parsed, before any input
file is opened. -/

/-- Embedding of `check_max_scan(m)` (src/razor.py lines 70-78): coerce to
`int` (raising a configuration error on failure), then reject values below
16. -/
def check_max_scan (m : Option Int) : Except String Int :=
  match m with
  | none => .error "Max scan should be an integer."
  | some v => if v < 16 then .error "Max scan should be greater than 16." else .ok v

/-- Embedding of the ncores option converter (src/razor.py lines 129-133):
argparse applies bare `type=int`, so the only rejection is a non-integer
value; no lower bound is checked. -/
def check_ncores (n : Option Int) : Except String Int :=
  match n with
  | none => .error "invalid int value"
  | some v => .ok v

/-- Whether a converter accepted the raw option value. -/
def accepted {α : Type} (e : Except String α) : Bool :=
  match e with
  | .ok _ => true
  | .error _ => false

/-! ## Annotation orchestration (src/razor.py lines 141-154)

`main` applies `razor_predict` over the Sequence column either with
`progress_apply` (`ncores == 1`, sequential) or with pandarallel's
`parallel_apply`.  `parallel_apply` splits the column into contiguous
chunks, each worker maps the function over its chunk, and the results are
gathered keyed by chunk position — workers may finish in any order.  The
fan-out/fan-in is modelled by an arbitrary completion schedule `sched`
(the order in which chunk results become available). -/

/-- The sequential reference path: `df['Sequence'].progress_apply(f)`. -/
def seqAnnotate {α β : Type} (f : α → β) (rows : List α) : List β :=
  rows.map f

/-- Worker completions in schedule order: each entry pairs a chunk index
with that chunk's mapped results. -/
def dispatch {α β : Type} (f : α → β) (chunks : List (List α))
    (sched : List ℕ) : List (ℕ × List β) :=
  sched.filterMap (fun i => chunks[i]?.map (fun c => (i, c.map f)))

/-- Gather completed chunk results back in chunk-index order. -/
def gatherChunks {β : Type} (k : ℕ) (completed : List (ℕ × List β)) : List (List β) :=
  (List.range k).filterMap (fun i => completed.lookup i)

/-- The parallel path: chunked fan-out under completion schedule `sched`,
index-keyed fan-in, concatenation in original chunk order. -/
def parAnnotate {α β : Type} (f : α → β) (chunks : List (List α))
    (sched : List ℕ) : List β :=
  (gatherChunks chunks.length (dispatch f chunks sched)).flatten

/-! ## razor_predict (src/razor.py lines 81-109)

The classifier object `libs.detector.RAZOR` is not part of src/; its state
after `predict()` is modelled from the spec.  Scores are rationals:
the binary floating-point representation is abstracted away. -/

/-- A Python exception, as far as this program distinguishes them. -/
inductive PyErr : Type
  | typeError : PyErr
  | otherError : PyErr
deriving DecidableEq, Repr

/-- `np.around(x, 2)` on one value: round to 2 decimal places, ties to the
even hundredth (numpy rounds half to even), modelled over `ℚ`. -/
def roundHalfEven (q : ℚ) : ℤ :=
  let f : ℤ := ⌊q⌋
  let r : ℚ := q - f
  if r < 1 / 2 then f
  else if 1 / 2 < r then f + 1
  else if Even f then f else f + 1

/-- Round a score to 2 decimal places as `np.around(x, 2)` does. -/
def round2 (q : ℚ) : ℚ :=
  (roundHalfEven (q * 100) : ℚ) / 100

/-- Modelled from the spec: the state of a `libs.detector.RAZOR` object
after `predict()` has run (the detector module is not under src/).  The
primary fields 1-6 are the arrays `predict()` filled in; `fungiVals` and
`toxinVals` hold the values the optional secondary and tertiary stages
would compute, and `stagesApplicable` says whether those optional stages
apply to this input — the spec treats their applicability jointly and has
an inapplicable stage raise a `TypeError`, leaving its output fields at
their defaults (empty sequences, zero aggregate). -/
structure RAZOR : Type where
  y_scores : List ℚ
  preds : List ℕ
  c_scores : List ℚ
  cleavage_sites : List ℕ
  final_cleavage : List ℕ
  final_score_sp : ℚ
  stagesApplicable : Bool
  fungiVals : List ℚ × List ℕ × ℚ
  toxinVals : List ℚ × List ℕ × ℚ
deriving DecidableEq, Repr

/-- Modelled from the spec: `newObj.fungi()` — computes the secondary-stage
values when the stage applies, raises `TypeError` when it does not. -/
def RAZOR.fungi (o : RAZOR) : Except PyErr (List ℚ × List ℕ × ℚ) :=
  if o.stagesApplicable then .ok o.fungiVals else .error .typeError

/-- Modelled from the spec: `newObj.toxin()` — same shape as `fungi`. -/
def RAZOR.toxin (o : RAZOR) : Except PyErr (List ℚ × List ℕ × ℚ) :=
  if o.stagesApplicable then .ok o.toxinVals else .error .typeError

/-- Default secondary/tertiary output fields: empty sequences and a zero
aggregate score. -/
def defaultStage : List ℚ × List ℕ × ℚ := ([], [], 0)

/-- The `try: fungi; toxin except TypeError: pass` block of src/razor.py
lines 87-91: only a `TypeError` is suppressed, and a raise in `fungi`
skips the `toxin` call, so both stages keep their default fields. -/
def tryOptionalStages (o : RAZOR) :
    Except PyErr ((List ℚ × List ℕ × ℚ) × (List ℚ × List ℕ × ℚ)) :=
  match o.fungi with
  | .error .typeError => .ok (defaultStage, defaultStage)
  | .error e => .error e
  | .ok fv =>
    match o.toxin with
    | .error .typeError => .ok (fv, defaultStage)
    | .error e => .error e
    | .ok tv => .ok (fv, tv)

/-- The 12-field tuple returned by `razor_predict`, with one named field per
tuple position (and per output column of `main`). -/
structure AnnotationBundle : Type where
  y_score : List ℚ
  sp_prediction : List ℕ
  max_c : List ℚ
  probable_cleavage : List ℕ
  cleavage_after : ℕ
  sp_score : ℚ
  fungi_scores : List ℚ
  fungi_prediction : List ℕ
  fungi_scores_median : ℚ
  toxin_scores : List ℚ
  toxin_prediction : List ℕ
  toxin_scores_median : ℚ
deriving DecidableEq, Repr

/-- Embedding of `razor_predict(seq, max_scan)` (src/razor.py lines 81-109)
from the detector state after `predict()`:
`final_cleavage.tolist()[0]` is guarded by `except Exception: cleav = 0`,
`y_scores` and `final_score_sp` pass through `np.around(-, 2)`, and every
other field is read off unchanged. -/
def razor_predict (o : RAZOR) : Except PyErr AnnotationBundle :=
  (tryOptionalStages o).map (fun st =>
    { y_score := o.y_scores.map round2
      sp_prediction := o.preds
      max_c := o.c_scores
      probable_cleavage := o.cleavage_sites
      cleavage_after := o.final_cleavage.head?.getD 0
      sp_score := round2 o.final_score_sp
      fungi_scores := st.1.1
      fungi_prediction := st.1.2.1
      fungi_scores_median := st.1.2.2
      toxin_scores := st.2.1
      toxin_prediction := st.2.2.1
      toxin_scores_median := st.2.2.2 })

/-! ## Concrete inputs used by claim instances -/

/-- A 96-character sequence whose invalid residue `X` sits at position 95,
just beyond the validator's default `80 + 15` window. -/
def c1Seq : List Char := List.replicate 95 'A' ++ ['X']

/-- The spec's attrition example: ten records of which exactly three fail
validation (an invalid alphabet, an empty sequence, a missing sequence). -/
def tenBlocks : List (List Char) :=
  ["S1\nMKLV".toList, "S2\nACDEFG".toList, "B1\nACXZ".toList, "S3\nWYHH".toList,
   "B2\n".toList, "S4\nTTGG".toList, "B3".toList, "S5\nRKND".toList,
   "S6\nQEHP".toList, "S7\nMAMC".toList]

/-- A concrete detector state whose optional stages are inapplicable. -/
def c8obj : RAZOR :=
  { y_scores := [1/2, 3/4]
    preds := [1, 0]
    c_scores := [2/3]
    cleavage_sites := [5]
    final_cleavage := [4]
    final_score_sp := 157/100
    stagesApplicable := false
    fungiVals := ([1/5], [2], 3)
    toxinVals := ([4/5], [5], 6) }

/-- A concrete applicable detector state whose aggregate fungal and toxin
scores have a third decimal, so rounding them would change them. -/
def c9obj : RAZOR :=
  { y_scores := [123/1000]
    preds := [1]
    c_scores := [2/3]
    cleavage_sites := [7]
    final_cleavage := []
    final_score_sp := 991/1000
    stagesApplicable := true
    fungiVals := ([1/3], [2], 157/1000)
    toxinVals := ([2/7], [5], 243/1000) }

/-! ## Helper lemmas -/

theorem toNat_ofNat_small (n : ℕ) (h2 : n ≤ 90) : (Char.ofNat n).toNat = n := by
  have hv : n.isValidChar := Or.inl (by omega)
  rw [Char.ofNat, dif_pos hv]
  rfl

theorem pyToUpper_idem (c : Char) : pyToUpper (pyToUpper c) = pyToUpper c := by
  unfold pyToUpper
  by_cases h : 'a' ≤ c ∧ c ≤ 'z'
  · rw [if_pos h]
    have h1 : 97 ≤ c.toNat := h.1
    have h2 : c.toNat ≤ 122 := h.2
    have ht : (Char.ofNat (c.toNat - 32)).toNat = c.toNat - 32 :=
      toNat_ofNat_small _ (by omega)
    have hn : ¬('a' ≤ Char.ofNat (c.toNat - 32) ∧ Char.ofNat (c.toNat - 32) ≤ 'z') := by
      intro hc
      have : (97 : ℕ) ≤ (Char.ofNat (c.toNat - 32)).toNat := hc.1
      omega
    rw [if_neg hn]
  · rw [if_neg h, if_neg h]

theorem replaceUC_pyToUpper_idem (c : Char) :
    replaceUC (pyToUpper (replaceUC (pyToUpper c))) = replaceUC (pyToUpper c) := by
  by_cases h : pyToUpper c = 'U'
  · have hc : replaceUC (pyToUpper c) = 'C' := by rw [h]; rfl
    rw [hc]
    decide
  · have hid : replaceUC (pyToUpper c) = pyToUpper c := by
      unfold replaceUC
      rw [if_neg h]
    rw [hid, pyToUpper_idem, hid]

/-! ## Claim theorems -/

/-- C10: for every sequence `s` and scan value `m`, `check_seq s m` agrees
with `check_seq` applied to the normalized sequence — uppercased with every
`U` rewritten to `C` — so the validator judges raw input on its normalized
form; in particular the lowercase sequence `acu` is admitted although
lowercase letters and `U` lie outside the 20-letter alphabet. -/
theorem c10_check_seq_normalizes :
    (∀ (s : List Char) (m : ℕ), check_seq s m = check_seq (specNormalize s) m) ∧
    (check_seq "acu".toList 80 = true ∧ "acu".toList.all validAA = false) := by
  refine ⟨fun s m => ?_, by decide, by decide⟩
  unfold check_seq specNormalize
  congr 1
  rw [List.map_take, List.map_take, List.map_map, List.map_map, List.map_map]
  have hfun : ((replaceUC ∘ pyToUpper) ∘ replaceUC ∘ pyToUpper) = replaceUC ∘ pyToUpper := by
    funext c
    exact replaceUC_pyToUpper_idem c
  rw [hfun]

/-- C4 counterexample: the string `"ACD\n"` is uppercased, `U`-free and
short enough, yet `check_seq` accepts it while its final character, a
newline, is outside the 20-letter alphabet — Python's `$` anchor also
matches just before one trailing newline. -/
theorem c4_counterexample :
    "ACD\n".toList.map pyToUpper = "ACD\n".toList ∧
    "ACD\n".toList.map replaceUC = "ACD\n".toList ∧
    "ACD\n".toList.length ≤ 80 + 15 ∧
    check_seq "ACD\n".toList 80 = true ∧
    "ACD\n".toList.all validAA = false := by
  decide

/-- C4 (amended): for every already-normalized string of length at most
`m + 15`, `check_seq` returns true iff every character belongs to the
20-symbol alphabet, or the string ends in one newline character and every
character before it belongs to the alphabet. -/
theorem c4_validator_characterization (s : List Char) (m : ℕ)
    (hup : s.map pyToUpper = s) (hU : s.map replaceUC = s)
    (hlen : s.length ≤ m + 15) :
    check_seq s m = true ↔
      (s.all validAA = true ∨
        (s.getLast? = some '\n' ∧ s.dropLast.all validAA = true)) := by
  unfold check_seq
  rw [hup, List.take_of_length_le hlen, hU]
  unfold matchesValidDollar
  simp [Bool.or_eq_true, Bool.and_eq_true, beq_iff_eq]

/-- C4 witness: the amended characterization instantiated at the spec's
20-letter example, whose hypotheses hold concretely. -/
theorem c4_witness :
    "ACDEFGHIKLMNPQRSTVWY".toList.map pyToUpper = "ACDEFGHIKLMNPQRSTVWY".toList ∧
    (check_seq "ACDEFGHIKLMNPQRSTVWY".toList 16 = true ↔
      ("ACDEFGHIKLMNPQRSTVWY".toList.all validAA = true ∨
        ("ACDEFGHIKLMNPQRSTVWY".toList.getLast? = some '\n' ∧
          "ACDEFGHIKLMNPQRSTVWY".toList.dropLast.all validAA = true))) :=
  ⟨by decide,
    c4_validator_characterization "ACDEFGHIKLMNPQRSTVWY".toList 16
      (by decide) (by decide) (by decide)⟩

/-- C1: with `scan_window = 81` the truncation window is `81 + 15 = 96`
characters, but `fasta_reader` calls `check_seq` without a second argument,
so the validator inspects only the default `80 + 15 = 95` characters: the
record below survives with the uninspected invalid residue `X` retained,
while a validator using the configured window would reject it. -/
theorem c1_window_mismatch :
    fasta_reader [('I' :: 'D' :: '\n' :: c1Seq)] 81 = ([("ID".toList, c1Seq)], 0) ∧
    c1Seq.all validAA = false ∧
    check_seq c1Seq 81 = false ∧
    check_seq c1Seq 80 = true := by
  decide

/-- C2: pandas `Series.replace('U','C')` without `regex=True` only replaces
whole values equal to `"U"`, so the raw sequence `ACU` is stored as `ACU`,
not as the `ACC` the claim prescribes — even though the validator accepted
it (the validator rewrites `U` to `C` internally). -/
theorem c2_stored_sequence_keeps_U :
    fasta_reader ["ID\nACU".toList] 16 = ([("ID".toList, "ACU".toList)], 0) ∧
    "ACU".toList ≠ "ACC".toList ∧
    check_seq "ACU".toList 80 = true ∧
    seriesReplaceWholeU "ACU".toList = "ACU".toList := by
  decide

/-- C5: a parsed row survives `fasta_reader` exactly when none of the drop
conditions holds — the validator accepts its processed sequence, the
processed sequence is neither empty nor the literal `NONE` (the rendering
of an absent sequence); concretely, a block holding an identifier but no
sequence text is dropped. -/
theorem c5_drop_conditions :
    (∀ (blocks : List (List Char)) (m : ℕ),
      (fasta_reader blocks m).1 =
        (parsedRows blocks m).filter
          (fun r => check_seq r.2 80 && (decide (r.2 ≠ []) && decide (r.2 ≠ noneUpper)))) ∧
    fasta_reader ["ID".toList] 20 = ([], 1) := by
  refine ⟨fun blocks m => ?_, by decide⟩
  unfold fasta_reader
  dsimp only
  rw [List.filter_filter]
  congr 1
  funext a
  rw [Bool.and_comm]

/-- C6: the attrition count returned by `fasta_reader` is always the number
of parsed records minus the number of surviving rows, and on the spec's
ten-record example with three failing records the table has exactly 7 rows
and the reported count is exactly 3. -/
theorem c6_attrition_accounting :
    (∀ (blocks : List (List Char)) (m : ℕ),
      (fasta_reader blocks m).2 = blocks.length - (fasta_reader blocks m).1.length) ∧
    (fasta_reader tenBlocks 16).1.length = 7 ∧
    (fasta_reader tenBlocks 16).2 = 3 := by
  refine ⟨fun blocks m => ?_, by decide, by decide⟩
  unfold fasta_reader parsedRows
  simp [List.length_map]

/-- C7 counterexample: a worker count of `0` passes the configuration
stage — argparse applies bare `int` with no lower bound — although the
claim says any worker count below 1 is rejected. -/
theorem c7_counterexample :
    accepted (check_ncores (some 0)) = true ∧ (0 : ℤ) < 1 := by
  decide

/-- C7 (amended): during argument parsing, before any input file is read,
the scan window is rejected exactly when it is not an integer or is below
16, and the worker count is rejected exactly when it is not an integer —
no lower bound on the worker count is enforced. -/
theorem c7_config_validation (m n : Option ℤ) :
    (accepted (check_max_scan m) = true ↔ ∃ v, m = some v ∧ 16 ≤ v) ∧
    (accepted (check_ncores n) = true ↔ n ≠ none) := by
  constructor
  · cases m with
    | none => simp [check_max_scan, accepted]
    | some v =>
        by_cases h : v < 16
        · simp only [check_max_scan, if_pos h, accepted]
          constructor
          · intro hf
            exact absurd hf (by simp)
          · rintro ⟨w, hw, h16⟩
            cases hw
            omega
        · simp only [check_max_scan, if_neg h, accepted]
          constructor
          · intro _
            exact ⟨v, rfl, by omega⟩
          · intro _
            trivial
  · cases n with
    | none => simp [check_ncores, accepted]
    | some v => simp [check_ncores, accepted]

/-- C8: on any input whose optional secondary/tertiary classifier stages
are inapplicable (they raise `TypeError`), `razor_predict` still returns
the full 12-field bundle: fields 7-12 hold the defaults — empty sequences
and zero aggregate scores — and no error escapes the call. -/
theorem c8_optional_stage_defaults (o : RAZOR) (h : o.stagesApplicable = false) :
    razor_predict o = .ok
      { y_score := o.y_scores.map round2
        sp_prediction := o.preds
        max_c := o.c_scores
        probable_cleavage := o.cleavage_sites
        cleavage_after := o.final_cleavage.head?.getD 0
        sp_score := round2 o.final_score_sp
        fungi_scores := []
        fungi_prediction := []
        fungi_scores_median := 0
        toxin_scores := []
        toxin_prediction := []
        toxin_scores_median := 0 } := by
  unfold razor_predict tryOptionalStages RAZOR.fungi
  rw [h]
  rfl

/-- C8 witness: the default-field theorem instantiated at `c8obj`. -/
theorem c8_witness :
    c8obj.stagesApplicable = false ∧
    razor_predict c8obj = .ok
      { y_score := c8obj.y_scores.map round2
        sp_prediction := c8obj.preds
        max_c := c8obj.c_scores
        probable_cleavage := c8obj.cleavage_sites
        cleavage_after := c8obj.final_cleavage.head?.getD 0
        sp_score := round2 c8obj.final_score_sp
        fungi_scores := []
        fungi_prediction := []
        fungi_scores_median := 0
        toxin_scores := []
        toxin_prediction := []
        toxin_scores_median := 0 } :=
  ⟨rfl, c8_optional_stage_defaults c8obj rfl⟩

/-- C9: in the 12-field bundle, exactly the per-position score sequence
(field 1) and the aggregate primary score (field 6) pass through
`np.around(-, 2)`; every other field — in particular the secondary and
tertiary aggregate scores (fields 9 and 12) — is returned unchanged from
the detector state. -/
theorem c9_rounded_fields (o : RAZOR) (h : o.stagesApplicable = true) :
    razor_predict o = .ok
      { y_score := o.y_scores.map round2
        sp_prediction := o.preds
        max_c := o.c_scores
        probable_cleavage := o.cleavage_sites
        cleavage_after := o.final_cleavage.head?.getD 0
        sp_score := round2 o.final_score_sp
        fungi_scores := o.fungiVals.1
        fungi_prediction := o.fungiVals.2.1
        fungi_scores_median := o.fungiVals.2.2
        toxin_scores := o.toxinVals.1
        toxin_prediction := o.toxinVals.2.1
        toxin_scores_median := o.toxinVals.2.2 } := by
  unfold razor_predict tryOptionalStages RAZOR.fungi RAZOR.toxin
  rw [h]
  rfl

theorem round2_changes_157 : round2 (157/1000) ≠ 157/1000 := by
  norm_num [round2, roundHalfEven]

theorem round2_changes_243 : round2 (243/1000) ≠ 243/1000 := by
  norm_num [round2, roundHalfEven]

/-- C9 witness: the rounding theorem instantiated at `c9obj`; its fungal
and toxin aggregates come back unchanged even though rounding would have
altered them, while fields 1 and 6 are rounded. -/
theorem c9_witness :
    c9obj.stagesApplicable = true ∧
    razor_predict c9obj = .ok
      { y_score := c9obj.y_scores.map round2
        sp_prediction := c9obj.preds
        max_c := c9obj.c_scores
        probable_cleavage := c9obj.cleavage_sites
        cleavage_after := c9obj.final_cleavage.head?.getD 0
        sp_score := round2 c9obj.final_score_sp
        fungi_scores := c9obj.fungiVals.1
        fungi_prediction := c9obj.fungiVals.2.1
        fungi_scores_median := c9obj.fungiVals.2.2
        toxin_scores := c9obj.toxinVals.1
        toxin_prediction := c9obj.toxinVals.2.1
        toxin_scores_median := c9obj.toxinVals.2.2 } ∧
    round2 (157/1000) ≠ (157/1000 : ℚ) ∧
    round2 (243/1000) ≠ (243/1000 : ℚ) :=
  ⟨rfl, c9_rounded_fields c9obj rfl, round2_changes_157, round2_changes_243⟩

/-- Looking up chunk `i` among the completions of any schedule that covers
it recovers exactly chunk `i`'s mapped results: the value stored for a key
is a function of the key alone, so completion order is irrelevant. -/
theorem lookup_dispatch {α β : Type} (f : α → β) (chunks : List (List α))
    (sched : List ℕ) (i : ℕ) (hb : ∀ j ∈ sched, j < chunks.length)
    (hi : i ∈ sched) :
    (dispatch f chunks sched).lookup i = chunks[i]?.map (fun c => c.map f) := by
  induction sched with
  | nil => cases hi
  | cons j rest ih =>
    have hj : j < chunks.length := hb j (List.mem_cons_self j rest)
    have hcj : chunks[j]? = some chunks[j] := List.getElem?_eq_getElem hj
    unfold dispatch
    rw [List.filterMap_cons]
    simp only [hcj, Option.map_some']
    by_cases hij : i = j
    · subst hij
      rw [List.lookup_cons]
      simp only [beq_self_eq_true]
      rw [hcj]
      rfl
    · rw [List.lookup_cons]
      have hbeq : (i == j) = false := beq_eq_false_iff_ne.mpr hij
      simp only [hbeq]
      exact ih (fun j' hj' => hb j' (List.mem_cons_of_mem j hj'))
        (List.mem_of_ne_of_mem hij hi)

/-- Indexed recollection over the full index range reconstitutes the list:
gathering `l[i]` for `i = 0, …, length - 1` is `l.map g`. -/
theorem range_filterMap_getElem {γ δ : Type} (l : List γ) (g : γ → δ) :
    (List.range l.length).filterMap (fun i => l[i]?.map g) = l.map g := by
  induction l with
  | nil => rfl
  | cons a t ih =>
    rw [List.length_cons, List.range_succ_eq_map, List.filterMap_cons]
    simp only [List.getElem?_cons_zero, Option.map_some']
    rw [List.filterMap_map]
    have hcomp : ((fun i => (a :: t)[i]?.map g) ∘ Nat.succ) = fun i => t[i]?.map g := by
      funext i
      simp [Function.comp, List.getElem?_cons_succ]
    rw [hcomp, ih]
    rfl

/-- C3: for every record list, every chunking of it, and every worker
completion order, the parallel fan-out/fan-in path produces exactly the
rows of the sequential reference path: the output is in original record
order and is independent of pool size (the chunking) and of completion
order (the schedule). -/
theorem c3_parallel_refines_sequential {α β : Type} (f : α → β) (rows : List α)
    (chunks : List (List α)) (sched : List ℕ)
    (hflat : chunks.flatten = rows) (hperm : sched.Perm (List.range chunks.length)) :
    parAnnotate f chunks sched = seqAnnotate f rows := by
  subst hflat
  unfold parAnnotate seqAnnotate gatherChunks
  have hb : ∀ j ∈ sched, j < chunks.length := fun j hj =>
    List.mem_range.mp (hperm.subset hj)
  have hcong : ∀ i ∈ List.range chunks.length,
      (dispatch f chunks sched).lookup i = chunks[i]?.map (fun c => c.map f) := by
    intro i hi
    exact lookup_dispatch f chunks sched i hb
      (hperm.mem_iff.mpr hi)
  rw [List.filterMap_congr hcong, range_filterMap_getElem, ← List.map_flatten]

/-- C3 witness: three records in two chunks, the second chunk completing
first; the gathered output equals the sequential annotation. -/
theorem c3_witness :
    ([["MK".toList], ["AX".toList, "RR".toList]] : List (List (List Char))).flatten
        = ["MK".toList, "AX".toList, "RR".toList] ∧
    List.Perm [1, 0] (List.range 2) ∧
    parAnnotate (fun s => check_seq s 80) [["MK".toList], ["AX".toList, "RR".toList]] [1, 0]
      = seqAnnotate (fun s => check_seq s 80) ["MK".toList, "AX".toList, "RR".toList] :=
  ⟨by decide, by decide,
    c3_parallel_refines_sequential (fun s => check_seq s 80)
      ["MK".toList, "AX".toList, "RR".toList]
      [["MK".toList], ["AX".toList, "RR".toList]] [1, 0] (by decide) (by decide)⟩

end Razor
